import Mathlib

/-!
Verification of the content-library ingestion pipeline (repository
`passersbyc/test`). The Python source is shallowly embedded: pure helpers of
`toolboxs.py` become Lean functions; the stateful import pipeline of
`src/cli/commands/import.py` becomes explicit state passing over a small
library-state record. Filesystem paths are modelled as lists of path
segments relative to the project root; file contents read from disk
(manifest rows, sidecar records) are modelled as explicit inputs, and every
fallible I/O step (copy, sidecar write, manifest write, config read) as a
boolean outcome supplied in the environment, matching the `try/except`
structure of the source.
-/

namespace LibraryIngest

/-- Lowercase a string character by character (Python `str.lower` on the
ASCII range used by file extensions). -/
def lowerStr (s : String) : String := String.mk (s.toList.map Char.toLower)

/-- Split a character list at every occurrence of a separator character
(Python `str.split(sep)` for a one-character separator, which is also what
`pathlib` does with the path separator). -/
def splitChar (c : Char) : List Char → List (List Char)
  | [] => [[]]
  | a :: as =>
      let r := splitChar c as
      if a == c then [] :: r
      else
        match r with
        | [] => [[a]]
        | g :: gs => (a :: g) :: gs

/-- The final component of a slash-separated path
(Python `pathlib.PurePath.name`). -/
def pathName (p : String) : String :=
  match (splitChar '/' p.toList).getLast? with
  | some n => String.mk n
  | none => p

/-- Index of the last occurrence of the dot character in a character list
(Python `str.rfind`, restricted to found positions). -/
def lastDotIdx (cs : List Char) : Option Nat :=
  ((List.range cs.length).filter (fun i => cs.get? i = some '.')).getLast?

/-- Python `pathlib.PurePath.suffix` on a file name: the segment from the
last dot onwards, but only when that dot is neither the first nor the last
character of the name; otherwise the empty string. So `"a.txt"` gives
`".txt"`, while `".bashrc"` and `"a."` give `""`. -/
def pySuffix (name : String) : String :=
  let cs := name.toList
  match lastDotIdx cs with
  | some i => if 0 < i ∧ i < cs.length - 1 then String.mk (cs.drop i) else ""
  | none => ""

/-- Python `pathlib.PurePath.stem`: the name with its suffix removed. -/
def pyStem (name : String) : String :=
  let cs := name.toList
  String.mk (cs.take (cs.length - (pySuffix name).toList.length))

/-- Embedding of `toolboxs.determine_file_type`: lowercase the suffix of the
final path component, strip the leading dot, and look the key up in the configured
extension-to-category table; `"unknown"` when the suffix is empty or the key
is absent. The config file is re-read by the source on every call; the
resulting `filetype` table is the `table` argument here (an unreadable or
absent config yields the empty table). Total: no input raises. The
extension computation `path_obj.suffix.lower()` is factored out as `pyExt`. -/
def pyExt (file_path : String) : String := lowerStr (pySuffix (pathName file_path))

def determine_file_type (file_path : String) (table : List (String × String)) : String :=
  let ext := pyExt file_path
  if ext = "" then "unknown"
  else
    match table.lookup (ext.drop 1) with
    | some c => c
    | none => "unknown"

/-- Extraction rule stated by the spec, for comparison with the rule of the
code:
`pySuffix`-based rule: "the text after the last `.`, empty string if none"
(spec §4.2), lowercased. -/
def textAfterLastDot (s : String) : String :=
  match lastDotIdx s.toList with
  | some i => lowerStr (String.mk (s.toList.drop (i + 1)))
  | none => ""

/-- Python truthiness of an optional string argument: `None` and the empty
string are falsy (`argparse` yields `None` for an omitted option). -/
def truthy (o : Option String) : Bool :=
  match o with
  | none => false
  | some s => s ≠ ""

/-- The pure path computation of
`ImportCommand._determine_storage_path`: base plus author plus series when
both are truthy, base plus author when only the author is, the flat
`unsort` bucket when only the series is, and the base itself otherwise. -/
def storageDir (base : List String) (author series : Option String) : List String :=
  if truthy author ∧ truthy series then base ++ [author.getD "", series.getD ""]
  else if truthy author ∧ ¬ truthy series then base ++ [author.getD ""]
  else if ¬ truthy author ∧ truthy series then base ++ ["unsort"]
  else base

/-- Insert a directory into the set of existing directories if it is not
already there (`mkdir` with `exist_ok=True`: an existing directory is not an
error, the state is simply unchanged). -/
def insertDir (fs : List (List String)) (d : List String) : List (List String) :=
  if d ∈ fs then fs else fs ++ [d]

/-- All nonempty prefixes of a segment path, shortest first. -/
def prefixesOf (p : List String) : List (List String) :=
  (List.range p.length).map (fun i => p.take (i + 1))

/-- Embedding of `Path.mkdir(parents=True, exist_ok=True)`: create the directory and all
its ancestors, never failing. -/
def mkdirP (fs : List (List String)) (p : List String) : List (List String) :=
  (prefixesOf p).foldl insertDir fs

/-- Outcome of reading the manifest CSV from disk: the file may be absent,
present but unreadable (an I/O error while opening or scanning it), or
readable with a list of CSV records (each record a list of fields; the
first record, when any, is the header row). -/
inductive ManifestRead
  | absent
  | unreadable
  | content (records : List (List String))
  deriving DecidableEq

/-- Field lookup of the Python `csv.DictReader` row dictionary: the value in
the position of `col` within the header, `none` when the column is absent
from the header or the data row is too short (`restval=None`). The
header names of the manifest are pairwise distinct, so first-match lookup agrees
with the dict built by `DictReader`. -/
def csvGet (hdr row : List String) (col : String) : Option String :=
  ((hdr.zip row).lookup col)

/-- Embedding of `ImportCommand._check_duplicate`: an empty fingerprint (the hashing
failure sentinel) short-circuits to "no match"; an absent manifest is "no
match"; a read failure prints a warning and is "no match"; otherwise the
first data row whose `MD5` column equals the fingerprint wins, reporting
the `文件名` (original filename) column of that row, `"未知文件"` when the
column is missing. Total: it never raises past the pipeline. -/
def check_duplicate (file_md5 : String) (m : ManifestRead) : Bool × String :=
  if file_md5 = "" then (false, "")
  else
    match m with
    | ManifestRead.absent => (false, "")
    | ManifestRead.unreadable => (false, "")
    | ManifestRead.content [] => (false, "")
    | ManifestRead.content (hdr :: rows) =>
        match rows.find? (fun r => csvGet hdr r "MD5" == some file_md5) with
        | some r => (true, (csvGet hdr r "文件名").getD "未知文件")
        | none => (false, "")

/-- Embedding of `ImportCommand._parse_tags` composed with the truthiness guard at its
call site: `None` or the empty string give the empty list, otherwise split
on commas, strip whitespace (Python `str.strip`, embedded as `pyStrip`),
and drop empty items. -/
def pyStrip (s : String) : String :=
  String.mk (((s.toList.dropWhile Char.isWhitespace).reverse.dropWhile
    Char.isWhitespace).reverse)

def parse_tags (o : Option String) : List String :=
  match o with
  | none => []
  | some s =>
      if s = "" then []
      else (((splitChar ',' s.toList).map (fun t => pyStrip (String.mk t))).filter
        (fun t => t ≠ ""))

/-- The sidecar record written by `ImportCommand._create_metadata_json` and
re-read by `export_library_manifest`. Optional fields hold `none` where the
Python dict holds `None`. -/
structure MetaRecord where
  original_filename : String
  author : Option String
  series : Option String
  tags : List String
  source : Option String
  file_type : String
  type : String
  import_time : String
  file_size : Nat
  md5 : String
  file_path : String
  deriving DecidableEq

/-- The fixed manifest header, shared verbatim by `export_library_manifest`
and `ImportCommand._supplement_csv`: filename, author, series, tags,
source, extension, category, import time, byte size, MD5 fingerprint,
storage path. -/
def csvHeaders : List String :=
  ["文件名", "作者", "系列", "标签", "来源",
   "后缀", "分类", "导入时间", "文件大小(Bytes)", "MD5", "文件路径"]

/-- Flatten a sidecar record into one manifest data row, in the fixed
column order of `csvHeaders`. The Python `csv` module writes `None` as an
empty field and an `int` via `str`; the tag list is comma-joined, so the
empty list serializes to the empty field (`joinWith` embeds the Python
`str.join`). Both the bootstrap export and the incremental append build
exactly this row. -/
def joinWith (sep : String) : List String → String
  | [] => ""
  | [a] => a
  | a :: b :: rest => a ++ sep ++ joinWith sep (b :: rest)

def rowOf (m : MetaRecord) : List String :=
  [m.original_filename, m.author.getD "", m.series.getD "",
   joinWith "," m.tags, m.source.getD "",
   m.file_type, m.type, m.import_time, toString m.file_size,
   m.md5, m.file_path]

/-- Embedding of `toolboxs.export_library_manifest` after its explicit-path
entry check:
if the hard-coded `library/.meta` tree is missing, return an error string
and write nothing; otherwise flatten every sidecar record that parsed
(`metaTree` lists the parse outcome of each `*.json` file under the tree,
`none` for a file that failed to parse and was skipped with a warning) and
write header plus data rows, returning the absolute output path on success
or an error string if the CSV write raises. The returned pair is (returned
string, content written to the output file, if any). -/
def exportWithPath (root : String) (output_csv_path : String)
    (metaDirExists : Bool) (metaTree : List (Option MetaRecord))
    (writeOk : Bool) : String × Option (List (List String)) :=
  if metaDirExists = false then
    ("错误: 目录 " ++ root ++ "/library/.meta 不存在", none)
  else
    let data_rows := (metaTree.filterMap id).map rowOf
    if writeOk then
      (root ++ "/" ++ output_csv_path, some (csvHeaders :: data_rows))
    else
      ("错误: 无法写入 CSV 文件", none)

/-- The Python exceptions the embedding distinguishes. -/
inductive PyError
  | nameError
  deriving DecidableEq

/-- Embedding of `toolboxs.export_library_manifest` in full. Its first line,
`if output_csv_path is None: output_csv_path = config["project_settings"]["csv_path"]`,
reads the global name `config`, which is never assigned anywhere in module
`toolboxs` (every other function binds a local `config`), so calling the
function without an output path raises `NameError` before anything else
runs. With an explicit path it proceeds as `exportWithPath`. -/
def export_library_manifest (root : String) (output_csv_path : Option String)
    (metaDirExists : Bool) (metaTree : List (Option MetaRecord))
    (writeOk : Bool) : Except PyError (String × Option (List (List String))) :=
  match output_csv_path with
  | none => Except.error PyError.nameError
  | some p => Except.ok (exportWithPath root p metaDirExists metaTree writeOk)

/-- The library state threaded through the import pipeline: the manifest
file, the set of existing directories, the asset files, and the sidecar
files, all as root-relative segment paths. -/
structure LibState where
  manifest : ManifestRead
  dirs : List (List String)
  files : List (List String)
  sidecars : List (List String)
  deriving DecidableEq

/-- The command-line arguments of one `import` invocation
(`argparse` yields `none` for an omitted option). -/
structure ImportArgs where
  filePath : String
  author : Option String
  series : Option String
  tags : Option String
  source : Option String
  deriving DecidableEq

/-- The environment of one import run: the data read from outside the
library state and the outcome of each fallible I/O step. `file_md5` is what
`generate_file_md5` returned — a 32-character hex digest on success, `""`
after a read failure (the source logs the error and returns the empty
sentinel). `metaTree` is the parse outcome of the sidecar tree, consulted
only if the manifest must be bootstrapped. -/
structure ImportEnv where
  file_md5 : String
  table : List (String × String)
  libraryPath : List String
  rootStr : String
  csvName : String
  importTime : String
  fileSize : Nat
  copyOk : Bool
  sidecarOk : Bool
  configOk : Bool
  manifestWriteOk : Bool
  metaTree : List (Option MetaRecord)
  deriving DecidableEq

/-- The metadata dict built by `ImportCommand._create_metadata_json`:
falsy (`None` or empty) author/series/source become `None`; `file_type` is
the raw (not lowercased) suffix without its dot; `type` re-runs the
classifier; `file_path` is the path of the copied file relative to the
project root. -/
def create_metadata (args : ImportArgs) (env : ImportEnv)
    (target : List String) : MetaRecord :=
  let name := pathName args.filePath
  { original_filename := name
    author := if truthy args.author then args.author else none
    series := if truthy args.series then args.series else none
    tags := parse_tags args.tags
    source := if truthy args.source then args.source else none
    file_type := (pySuffix name).drop 1
    type := determine_file_type args.filePath env.table
    import_time := env.importTime
    file_size := env.fileSize
    md5 := env.file_md5
    file_path := joinWith "/" target }

/-- How `_supplement_csv` left the manifest. -/
inductive ManifestOutcome
  | configFailed
  | bootstrapped
  | appended
  | appendFailed
  deriving DecidableEq

/-- Embedding of `ImportCommand._supplement_csv`: a config-read failure returns without
touching anything; when the manifest file is absent, `export_library_manifest`
is invoked with the explicit manifest path (a bootstrap, whose own failure
is not even checked by the caller); when it exists, one row for the record
is appended in the fixed column order, writing the header first only when
the file is empty (`f.tell() == 0`), so an existing non-empty manifest is
never re-headered; an append failure is caught and reported, leaving the
manifest unchanged. -/
def supplement_csv (m : MetaRecord) (env : ImportEnv) (st : LibState) :
    LibState × ManifestOutcome :=
  if env.configOk = false then (st, ManifestOutcome.configFailed)
  else
    match st.manifest with
    | ManifestRead.absent =>
        let res := exportWithPath env.rootStr env.csvName
          (st.dirs.contains ["library", ".meta"]) env.metaTree env.manifestWriteOk
        match res.2 with
        | some recs =>
            ({ st with manifest := ManifestRead.content recs }, ManifestOutcome.bootstrapped)
        | none => (st, ManifestOutcome.bootstrapped)
    | ManifestRead.unreadable =>
        if env.manifestWriteOk then (st, ManifestOutcome.appended)
        else (st, ManifestOutcome.appendFailed)
    | ManifestRead.content c =>
        if env.manifestWriteOk then
          let c1 := c ++ (if c = [] then [csvHeaders] else []) ++ [rowOf m]
          ({ st with manifest := ManifestRead.content c1 }, ManifestOutcome.appended)
        else (st, ManifestOutcome.appendFailed)

/-- What one run of `ImportCommand.execute` printed, as a structured
report: the duplicate message with the original filename, the
unrecognized-type message, the copy failure, the sidecar-write failure
(`❌ 元数据生成失败`), or a completed import with its manifest outcome. -/
inductive Report
  | duplicate (origName : String)
  | unknownType
  | copyFailed
  | metaFailed
  | imported (mo : ManifestOutcome)
  deriving DecidableEq

/-- Embedding of `ImportCommand.execute`, step for step: hash (already reflected in
`env.file_md5`), duplicate check (a hit returns exit code 0 with the
original filename of the duplicate and touches nothing), classification (an
`"unknown"` category returns exit code 1 before any path is created or any
byte written), storage-path resolution with directory creation for both the
asset tree and the mirrored `.meta` tree, the copy (failure is caught and
returns exit code 1), the sidecar write (its failure is caught *inside*
`_create_metadata_json`, which returns `None`, so `execute` skips the
manifest update and still returns 0), and finally the manifest update.
Returns (exit code, new state, report). -/
def ImportCommand_execute (args : ImportArgs) (env : ImportEnv)
    (st : LibState) : Nat × LibState × Report :=
  let dup := check_duplicate env.file_md5 st.manifest
  if dup.1 then (0, st, Report.duplicate dup.2)
  else
    let file_type := determine_file_type args.filePath env.table
    if file_type = "unknown" then (1, st, Report.unknownType)
    else
      let name := pathName args.filePath
      let type_path := env.libraryPath ++ [file_type]
      let json_path := env.libraryPath ++ [".meta", file_type]
      let current_path := storageDir type_path args.author args.series
      let json_folder := storageDir json_path args.author args.series
      let st1 := { st with dirs := mkdirP (mkdirP st.dirs current_path) json_folder }
      let target := current_path ++ [name]
      let json_file := json_folder ++ [pyStem name ++ ".json"]
      if env.copyOk = false then (1, st1, Report.copyFailed)
      else
        let st2 := { st1 with files := target :: st1.files }
        if env.sidecarOk = false then (0, st2, Report.metaFailed)
        else
          let m := create_metadata args env target
          let st3 := { st2 with sidecars := json_file :: st2.sidecars }
          let res := supplement_csv m env st3
          (0, res.1, Report.imported res.2)

/-- Embedding of `ManifestCommand.execute`: an absolute output path falls into the bare
`else: pass` branch and the method returns Python `None`; a relative path
that already exists falls off the inner `if` and also returns `None`; only
a relative, not-yet-existing path calls `export_library_manifest`, mapping
a returned string that starts with `"错误"` to exit code 1 and anything
else to 0. Absoluteness is POSIX (`is_absolute` ⟺ leading slash). Returns
(the Python return value, whether the export was invoked). `beginsWith`
and `strBeginsWith` embed the Python `str.startswith`. -/
def beginsWith (s pre : List Char) : Bool :=
  match s, pre with
  | _, [] => true
  | [], _ :: _ => false
  | a :: as, b :: bs => a == b && beginsWith as bs

def strBeginsWith (s pre : String) : Bool := beginsWith s.toList pre.toList

def ManifestCommand_execute (output : String) (outputExists : Bool)
    (root : String) (metaDirExists : Bool) (metaTree : List (Option MetaRecord))
    (writeOk : Bool) : Option Nat × Bool :=
  if strBeginsWith output "/" then (none, false)
  else if outputExists then (none, false)
  else
    let res := exportWithPath root output metaDirExists metaTree writeOk
    if strBeginsWith res.1 "错误" then (some 1, true) else (some 0, true)

/-- Concrete import arguments used to evaluate the theorems below on a
closed input: importing `b.txt` with an author and no series. -/
def argsA : ImportArgs :=
  { filePath := "b.txt", author := some "jane", series := none,
    tags := none, source := none }

/-- Concrete environment in which every I/O step succeeds and `b.txt`
hashed to the fingerprint `"h1"`. -/
def envA : ImportEnv :=
  { file_md5 := "h1", table := [("txt", "document")],
    libraryPath := ["library"], rootStr := "/r",
    csvName := "library_manifest.csv", importTime := "2026-01-01 00:00:00",
    fileSize := 5, copyOk := true, sidecarOk := true, configOk := true,
    manifestWriteOk := true, metaTree := [] }

/-- Concrete manifest data row whose `MD5` column is `"h1"`. -/
def rowDup : List String :=
  ["f.txt", "", "", "", "", "txt", "document", "t", "5", "h1", "p"]

/-- Concrete empty library: no manifest, no directories, no files. -/
def stEmpty : LibState :=
  { manifest := ManifestRead.absent, dirs := [], files := [], sidecars := [] }

/-- Concrete library whose manifest already holds the row `rowDup`. -/
def stDup : LibState :=
  { manifest := ManifestRead.content [csvHeaders, rowDup],
    dirs := [], files := [], sidecars := [] }

/-- Concrete sidecar record matching `argsA` and `envA`. -/
def recA : MetaRecord :=
  { original_filename := "b.txt", author := some "jane", series := none,
    tags := [], source := none, file_type := "txt", type := "document",
    import_time := "2026-01-01 00:00:00", file_size := 5, md5 := "h1",
    file_path := "library/document/jane/b.txt" }

theorem mem_insertDir {fs : List (List String)} {e : List String}
    (d : List String) (h : e ∈ fs) : e ∈ insertDir fs d := by
  unfold insertDir
  split
  · exact h
  · exact List.mem_append_left _ h

theorem self_mem_insertDir (fs : List (List String)) (d : List String) :
    d ∈ insertDir fs d := by
  unfold insertDir
  split
  · assumption
  · exact List.mem_append_right _ (List.mem_singleton_self d)

theorem insertDir_eq_of_mem {fs : List (List String)} {d : List String}
    (h : d ∈ fs) : insertDir fs d = fs := by
  unfold insertDir
  exact if_pos h

theorem mem_foldl_insertDir (ds : List (List String)) {fs : List (List String)}
    {e : List String} (h : e ∈ fs) : e ∈ ds.foldl insertDir fs := by
  induction ds generalizing fs with
  | nil => exact h
  | cons d ds ih => exact ih (mem_insertDir d h)

theorem all_mem_foldl_insertDir (ds : List (List String))
    (fs : List (List String)) : ∀ d ∈ ds, d ∈ ds.foldl insertDir fs := by
  induction ds generalizing fs with
  | nil => intro d h; cases h
  | cons a as ih =>
    intro d h
    cases h with
    | head => exact mem_foldl_insertDir as (self_mem_insertDir fs a)
    | tail _ h => exact ih (insertDir fs a) d h

theorem foldl_insertDir_of_all_mem {ds fs : List (List String)}
    (h : ∀ d ∈ ds, d ∈ fs) : ds.foldl insertDir fs = fs := by
  induction ds with
  | nil => rfl
  | cons a as ih =>
    rw [List.foldl_cons, insertDir_eq_of_mem (h a (List.mem_cons_self a as))]
    exact ih (fun d hd => h d (List.mem_cons_of_mem a hd))

theorem mkdirP_idem (fs : List (List String)) (p : List String) :
    mkdirP (mkdirP fs p) p = mkdirP fs p := by
  unfold mkdirP
  exact foldl_insertDir_of_all_mem (all_mem_foldl_insertDir (prefixesOf p) fs)

/-- C3: the storage-path resolver realizes exactly the four-case table —
author and series give `base/author/series`, an author alone gives
`base/author`, a series alone collapses into `base/unsort`, and neither
gives `base` — and directory creation is idempotent: repeating
`mkdir(parents=True, exist_ok=True)` on the same path leaves the directory
set unchanged and is not an error (the embedding of `mkdir` is total).
Determinism is inherent: `storageDir` is a pure function of its inputs.
Presence follows Python truthiness, so a provided author or series is a
non-empty string. -/
theorem spec_C3 (base : List String) (a s : String) (fs : List (List String))
    (p : List String) (ha : a ≠ "") (hs : s ≠ "") :
    storageDir base (some a) (some s) = base ++ [a, s] ∧
    storageDir base (some a) none = base ++ [a] ∧
    storageDir base none (some s) = base ++ ["unsort"] ∧
    storageDir base none none = base ∧
    mkdirP (mkdirP fs p) p = mkdirP fs p := by
  refine ⟨?_, ?_, ?_, ?_, mkdirP_idem fs p⟩ <;>
    simp [storageDir, truthy, ha, hs]

theorem spec_C3_witness :
    storageDir ["library", "document"] (some "jane") (some "s1") =
      ["library", "document", "jane", "s1"] ∧
    mkdirP (mkdirP [] ["a", "b"]) ["a", "b"] = mkdirP [] ["a", "b"] := by
  have h := spec_C3 ["library", "document"] "jane" "s1" [] ["a", "b"]
    (by decide) (by decide)
  exact ⟨h.1, h.2.2.2.2⟩

/-- C5, counterexample to the claim as stated: for the file name
`".bashrc"`, the text after the last dot is `"bashrc"`; with a configured
table mapping `"bashrc"` to `"config"` the claim requires the mapped
category, but the code extracts the extension with Python
`Path.suffix` — which treats a leading dot as no extension separator — and
returns `"unknown"`. -/
theorem spec_C5_cex :
    textAfterLastDot ".bashrc" = "bashrc" ∧
    ([("bashrc", "config")] : List (String × String)).lookup "bashrc" =
      some "config" ∧
    determine_file_type ".bashrc" [("bashrc", "config")] = "unknown" ∧
    ("unknown" : String) ≠ "config" := by
  refine ⟨by decide, by decide, by decide, by decide⟩

/-- C5, amended: the classifier extracts the lowercase extension with the
Python suffix rule — the segment from the last dot of the final path
component, counted only when that dot is neither the first nor the last
character of the name, empty otherwise. It returns the mapped category for
every such extension whose dotless key is in the table, and `"unknown"`
when the extension is empty or the key is absent. It is a total function,
so it never raises. -/
theorem spec_C5 (p : String) (table : List (String × String)) :
    (pyExt p = "" → determine_file_type p table = "unknown") ∧
    (∀ c, pyExt p ≠ "" → table.lookup ((pyExt p).drop 1) = some c →
      determine_file_type p table = c) ∧
    (pyExt p ≠ "" → table.lookup ((pyExt p).drop 1) = none →
      determine_file_type p table = "unknown") := by
  refine ⟨?_, ?_, ?_⟩
  · intro h
    simp [determine_file_type, h]
  · intro c h hc
    simp [determine_file_type, h, hc]
  · intro h hc
    simp [determine_file_type, h, hc]

theorem spec_C5_witness :
    determine_file_type "b.txt" [("txt", "document")] = "document" :=
  (spec_C5 "b.txt" [("txt", "document")]).2.1 "document" (by decide) (by decide)

/-- C7: the duplicate lookup reports "no match" — never an error — when the
fingerprint is the empty sentinel, when the manifest is absent, unreadable,
or empty, and when no data row matches; when the fingerprint is a real
digest and some data row matches, it returns the original-filename column
of the first matching row. Totality of `check_duplicate` is the never-raise
guarantee: a hashing failure merely disables dedup for the run. -/
theorem spec_C7 (md5 : String) (m : ManifestRead) (hdr r : List String)
    (rows : List (List String)) :
    check_duplicate "" m = (false, "") ∧
    check_duplicate md5 ManifestRead.absent = (false, "") ∧
    check_duplicate md5 ManifestRead.unreadable = (false, "") ∧
    check_duplicate md5 (ManifestRead.content []) = (false, "") ∧
    (md5 ≠ "" →
      rows.find? (fun q => csvGet hdr q "MD5" == some md5) = some r →
      check_duplicate md5 (ManifestRead.content (hdr :: rows)) =
        (true, (csvGet hdr r "文件名").getD "未知文件")) ∧
    (md5 ≠ "" →
      rows.find? (fun q => csvGet hdr q "MD5" == some md5) = none →
      check_duplicate md5 (ManifestRead.content (hdr :: rows)) =
        (false, "")) := by
  refine ⟨?_, ?_, ?_, ?_, ?_, ?_⟩
  · simp [check_duplicate]
  · by_cases h : md5 = "" <;> simp [check_duplicate, h]
  · by_cases h : md5 = "" <;> simp [check_duplicate, h]
  · by_cases h : md5 = "" <;> simp [check_duplicate, h]
  · intro h hf
    simp [check_duplicate, h, hf]
  · intro h hf
    simp [check_duplicate, h, hf]

theorem spec_C7_witness :
    check_duplicate "h1" (ManifestRead.content [csvHeaders, rowDup]) =
      (true, "f.txt") := by
  have h := (spec_C7 "h1" ManifestRead.absent csvHeaders rowDup [rowDup]).2.2.2.2.1
    (by decide) (by decide)
  exact h.trans (by decide)

/-- C9: calling `export_library_manifest` with no output path raises
`NameError` — the default-path branch reads the global name `config`, which
no statement of module `toolboxs` ever assigns — while every call with an
explicit output path takes the other branch and returns normally, so the
documented fallback is reachable only through callers that pass a path
(`ImportCommand._supplement_csv` and `ManifestCommand.execute` both do). -/
theorem spec_C9 (root : String) (mde w : Bool) (tree : List (Option MetaRecord)) :
    export_library_manifest root none mde tree w =
      Except.error PyError.nameError ∧
    ∀ p, ∃ res, export_library_manifest root (some p) mde tree w =
      Except.ok res :=
  ⟨rfl, fun _ => ⟨_, rfl⟩⟩

/-- C10: `ManifestCommand.execute` returns Python `None` and never invokes
the export when the requested output path is absolute or when it is a
relative path that already exists; only a relative, not-yet-existing path
invokes the export, and then the exit code is 0 or 1 according to whether
the returned string starts with the error marker. -/
theorem spec_C10 (output root : String) (outputExists metaDirExists writeOk : Bool)
    (tree : List (Option MetaRecord)) :
    (strBeginsWith output "/" = true →
      ManifestCommand_execute output outputExists root metaDirExists tree writeOk =
        (none, false)) ∧
    (strBeginsWith output "/" = false → outputExists = true →
      ManifestCommand_execute output outputExists root metaDirExists tree writeOk =
        (none, false)) ∧
    (strBeginsWith output "/" = false → outputExists = false →
      ∃ c, ManifestCommand_execute output outputExists root metaDirExists tree writeOk =
        (some c, true) ∧ (c = 0 ∨ c = 1)) := by
  refine ⟨?_, ?_, ?_⟩
  · intro h
    simp [ManifestCommand_execute, h]
  · intro h he
    simp [ManifestCommand_execute, h, he]
  · intro h he
    by_cases hs : strBeginsWith (exportWithPath root output metaDirExists tree writeOk).1 "错误" = true
    · exact ⟨1, by simp [ManifestCommand_execute, h, he, hs], Or.inr rfl⟩
    · exact ⟨0, by simp [ManifestCommand_execute, h, he, hs], Or.inl rfl⟩

theorem spec_C10_witness :
    ManifestCommand_execute "/abs/out.csv" false "/r" true [] true =
      (none, false) ∧
    ManifestCommand_execute "out.csv" true "/r" true [] true =
      (none, false) ∧
    ∃ c, ManifestCommand_execute "out.csv" false "/r" true [] true =
      (some c, true) ∧ (c = 0 ∨ c = 1) :=
  ⟨(spec_C10 "/abs/out.csv" "/r" false true true []).1 (by decide),
   (spec_C10 "out.csv" "/r" true true true []).2.1 (by decide) rfl,
   (spec_C10 "out.csv" "/r" false true true []).2.2 (by decide) rfl⟩

theorem filterMap_id_length_of_all_isSome {α : Type} (l : List (Option α))
    (h : ∀ o ∈ l, o.isSome) : (l.filterMap id).length = l.length := by
  induction l with
  | nil => rfl
  | cons a as ih =>
    cases a with
    | none => exact absurd (h none (List.mem_cons_self _ _)) (by simp)
    | some x =>
      simp only [List.filterMap_cons, id, List.length_cons]
      rw [ih (fun o ho => h o (List.mem_cons_of_mem _ ho))]

/-- C4, counterexample to the claim as stated: a bootstrap export over a
metadata tree holding exactly one sidecar file that fails to parse writes a
manifest with zero data rows (the header only), while the number of sidecar
files reachable under the tree is one — the claimed equality fails whenever
some sidecar does not parse, precisely because unparseable files are
skipped with a warning instead of producing a row. -/
theorem spec_C4_cex :
    exportWithPath "/r" "m.csv" true [(none : Option MetaRecord)] true =
      ("/r/m.csv", some [csvHeaders]) ∧
    [(none : Option MetaRecord)].length = 1 ∧
    ([csvHeaders] : List (List String)).length - 1 = 0 ∧
    (0 : Nat) ≠ 1 := by
  refine ⟨rfl, rfl, rfl, by decide⟩

/-- C4, amended: after a bootstrap export (metadata tree present, CSV write
succeeding), the number of data rows in the written manifest equals the
number of sidecar files that parse successfully; sidecar files that fail to
parse are skipped (with a warning) rather than aborting the export, which
still returns the output path and writes the file. In particular, when
every sidecar parses the row count equals the total number of sidecar
files, and an empty tree yields zero rows. -/
theorem spec_C4 (root p : String) (tree : List (Option MetaRecord)) :
    ∃ rows, exportWithPath root p true tree true =
        (root ++ "/" ++ p, some (csvHeaders :: rows)) ∧
      rows.length = (tree.filterMap id).length ∧
      ((∀ o ∈ tree, o.isSome) → rows.length = tree.length) ∧
      (tree = [] → rows = []) := by
  refine ⟨(tree.filterMap id).map rowOf, rfl, by simp, ?_, ?_⟩
  · intro h
    rw [List.length_map]
    exact filterMap_id_length_of_all_isSome tree h
  · intro h
    rw [h]
    rfl

theorem spec_C4_witness :
    ∃ rows, exportWithPath "/r" "m.csv" true ([] : List (Option MetaRecord)) true =
        ("/r" ++ "/" ++ "m.csv", some (csvHeaders :: rows)) ∧
      rows.length = 0 ∧ rows = [] := by
  obtain ⟨rows, h1, _, h3, h4⟩ := spec_C4 "/r" "m.csv" []
  refine ⟨rows, h1, ?_, h4 rfl⟩
  rw [h3 (fun o ho => absurd ho (List.not_mem_nil o))]
  rfl

/-- C6: when the manifest file already exists at import time (and the
config read and the append both succeed), `_supplement_csv` appends exactly
one new row for the just-imported record, in the fixed column order
filename, author, series, tags (comma-joined), source, extension, category,
importedAt, byteSize, fingerprint, storagePath; the header is added only
when the existing file is empty, so a non-empty manifest is never
re-headered; and an empty tag list serializes to the empty field. -/
theorem spec_C6 (m : MetaRecord) (env : ImportEnv) (st : LibState)
    (c : List (List String)) (hconf : env.configOk = true)
    (hw : env.manifestWriteOk = true)
    (hman : st.manifest = ManifestRead.content c) :
    (supplement_csv m env st).1.manifest =
      ManifestRead.content (c ++ (if c = [] then [csvHeaders] else []) ++ [rowOf m]) ∧
    (c ≠ [] → (supplement_csv m env st).1.manifest =
      ManifestRead.content (c ++ [rowOf m])) ∧
    (c ≠ [] → (c ++ [rowOf m]).length = c.length + 1) ∧
    rowOf m = [m.original_filename, m.author.getD "", m.series.getD "",
      joinWith "," m.tags, m.source.getD "", m.file_type, m.type,
      m.import_time, toString m.file_size, m.md5, m.file_path] ∧
    (m.tags = [] → joinWith "," m.tags = "") := by
  refine ⟨?_, ?_, ?_, rfl, ?_⟩
  · simp [supplement_csv, hconf, hman, hw]
  · intro hne
    simp [supplement_csv, hconf, hman, hw, hne]
  · intro _
    simp
  · intro h
    rw [h]
    rfl

theorem spec_C6_witness :
    (supplement_csv recA envA stDup).1.manifest =
      ManifestRead.content ([csvHeaders, rowDup] ++ [rowOf recA]) ∧
    joinWith "," recA.tags = "" := by
  have h := spec_C6 recA envA stDup [csvHeaders, rowDup] rfl rfl rfl
  exact ⟨h.2.1 (by decide), h.2.2.2.2 rfl⟩

/-- C1: when the readable manifest already contains a data row whose `MD5`
column equals the fingerprint of the source file (a computed MD5 digest is
a 32-character hex string, never the empty failure sentinel, hence the
nonemptiness hypothesis), `ImportCommand.execute` returns exit code 0,
reports the original filename recorded in the first matching row, and
returns the library state completely unchanged: no file copied, no sidecar
written, no manifest row appended. Since the fingerprint is a function of
the file bytes alone, importing the same byte content a second time — under
any filename and any author/series arguments — leaves exactly the one
existing asset and the one existing manifest row. -/
theorem spec_C1 (args : ImportArgs) (env : ImportEnv) (st : LibState)
    (hdr r : List String) (rows : List (List String))
    (hm : env.file_md5 ≠ "")
    (hman : st.manifest = ManifestRead.content (hdr :: rows))
    (hr : r ∈ rows) (hmd5 : csvGet hdr r "MD5" = some env.file_md5) :
    ∃ r0, rows.find? (fun q => csvGet hdr q "MD5" == some env.file_md5) = some r0 ∧
      r0 ∈ rows ∧ csvGet hdr r0 "MD5" = some env.file_md5 ∧
      ImportCommand_execute args env st =
        (0, st, Report.duplicate ((csvGet hdr r0 "文件名").getD "未知文件")) := by
  have hex : (rows.find? (fun q => csvGet hdr q "MD5" == some env.file_md5)).isSome :=
    List.find?_isSome.mpr ⟨r, hr, by simp [hmd5]⟩
  obtain ⟨r0, hr0⟩ := Option.isSome_iff_exists.mp hex
  have hprop : csvGet hdr r0 "MD5" = some env.file_md5 := by
    have := List.find?_some hr0
    simpa using this
  have hd : check_duplicate env.file_md5 st.manifest =
      (true, (csvGet hdr r0 "文件名").getD "未知文件") := by
    rw [hman]
    simp [check_duplicate, hm, hr0]
  exact ⟨r0, hr0, List.mem_of_find?_eq_some hr0, hprop,
    by simp [ImportCommand_execute, hd]⟩

theorem spec_C1_witness :
    ∃ r0, [rowDup].find? (fun q => csvGet csvHeaders q "MD5" == some "h1") = some r0 ∧
      r0 ∈ [rowDup] ∧ csvGet csvHeaders r0 "MD5" = some "h1" ∧
      ImportCommand_execute argsA envA stDup =
        (0, stDup, Report.duplicate ((csvGet csvHeaders r0 "文件名").getD "未知文件")) :=
  spec_C1 argsA envA stDup csvHeaders rowDup [rowDup]
    (by decide) rfl (by decide) (by decide)

/-- C8: when the file is not a duplicate and its classification is
`"unknown"` — the extension is not mapped by the configured table —
`ImportCommand.execute` returns exit code 1 with the library state
completely unchanged: no directory created, no file copied, no sidecar
written, no manifest mutation. The `return 1` sits before any path
resolution or write in the source. -/
theorem spec_C8 (args : ImportArgs) (env : ImportEnv) (st : LibState)
    (hdup : (check_duplicate env.file_md5 st.manifest).1 = false)
    (hunk : determine_file_type args.filePath env.table = "unknown") :
    ImportCommand_execute args env st = (1, st, Report.unknownType) := by
  simp [ImportCommand_execute, hdup, hunk]

theorem spec_C8_witness :
    ImportCommand_execute { argsA with filePath := "b.xyz" } envA stEmpty =
      (1, stEmpty, Report.unknownType) :=
  spec_C8 { argsA with filePath := "b.xyz" } envA stEmpty (by decide) (by decide)

/-- C2, counterexample to the claim as stated: importing `b.txt` into an
empty library with the copy succeeding and the sidecar write failing makes
`ImportCommand.execute` return exit code 0 — not the non-zero status the
claim requires — while reporting the metadata failure and leaving the
copied asset at `library/document/jane/b.txt`. In the source,
`_create_metadata_json` catches the write error, prints the failure message
and returns `None`, and `execute` then skips the manifest update and falls
through to `return 0`. -/
theorem spec_C2_cex :
    (ImportCommand_execute argsA { envA with sidecarOk := false } stEmpty).1 = 0 ∧
    (ImportCommand_execute argsA { envA with sidecarOk := false } stEmpty).2.2 =
      Report.metaFailed ∧
    ["library", "document", "jane", "b.txt"] ∈
      (ImportCommand_execute argsA { envA with sidecarOk := false } stEmpty).2.1.files := by
  refine ⟨by decide, by decide, by decide⟩

/-- C2, amended: for every import in which the file copy succeeds but the
subsequent metadata-sidecar write fails, the pipeline reports the failure
but exits with code 0 (not a non-zero status), and the already-copied asset
file is left in place (not rolled back); no sidecar is recorded and the
manifest is not touched. -/
theorem spec_C2 (args : ImportArgs) (env : ImportEnv) (st : LibState)
    (hdup : (check_duplicate env.file_md5 st.manifest).1 = false)
    (hty : determine_file_type args.filePath env.table ≠ "unknown")
    (hcopy : env.copyOk = true) (hmeta : env.sidecarOk = false) :
    (ImportCommand_execute args env st).1 = 0 ∧
    (ImportCommand_execute args env st).2.2 = Report.metaFailed ∧
    (ImportCommand_execute args env st).2.1.files =
      (storageDir (env.libraryPath ++ [determine_file_type args.filePath env.table])
        args.author args.series ++ [pathName args.filePath]) :: st.files ∧
    (ImportCommand_execute args env st).2.1.manifest = st.manifest ∧
    (ImportCommand_execute args env st).2.1.sidecars = st.sidecars := by
  refine ⟨?_, ?_, ?_, ?_, ?_⟩ <;>
    simp [ImportCommand_execute, hdup, hty, hcopy, hmeta]

theorem spec_C2_witness :
    (ImportCommand_execute argsA { envA with sidecarOk := false } stEmpty).1 = 0 ∧
    (ImportCommand_execute argsA { envA with sidecarOk := false } stEmpty).2.1.manifest =
      stEmpty.manifest :=
  ⟨(spec_C2 argsA { envA with sidecarOk := false } stEmpty
      (by decide) (by decide) rfl rfl).1,
   (spec_C2 argsA { envA with sidecarOk := false } stEmpty
      (by decide) (by decide) rfl rfl).2.2.2.1⟩

end LibraryIngest
